import Mathlib

/-!
Verification of the napari-plot (napari_1d) plotting layers.

This file gives a shallow embedding of the parts of the repository that the
verified properties talk about:

* `src/napari_1d/layers/region/region.py` — the `Region` layer: its
  `edge_width` and `z_index` property setters, `_initialize_color`,
  `add` / `_add_regions` z-index defaulting, and
  `_compute_vertices_and_box` highlight geometry;
* `src/napari_plot/layers/centroids/centroids.py` — the `Centroids` layer:
  `_initialize_color` and the `data` property setter;
* `src/napari_plot/_qt/qt_main_window.py` — the `_QtMainWindow`
  cursor-to-status-bar throttling connections.

Python machine floats are embedded as rationals (`ℚ`), numpy `(N, 4)` RGBA
arrays as `List RGBA`, numpy `(N, 2)` point arrays as `List Point`, and a
raised Python exception as an unchanged state paired with `some` error tag
(the embedded setters return `state × Option PyError`; the source raises
before performing any mutation in every modelled error path, so the paired
state is the receiver unchanged).
-/

namespace NapariPlot

/-- An RGBA color row of a numpy `(N, 4)` color array. -/
structure RGBA where
  r : ℚ
  g : ℚ
  b : ℚ
  a : ℚ
deriving DecidableEq, Repr

/-- The color white, `(1, 1, 1, 1)` — the `default="white"` used by the
color-initialization paths. -/
def whiteRGBA : RGBA := ⟨1, 1, 1, 1⟩

/-- Python exceptions raised by the embedded code. -/
inductive PyError where
  | valueError
  | indexError
deriving DecidableEq, Repr

/-- Modelled from the host framework (napari
`napari.layers.utils.color_transformations.transform_color_with_defaults`,
not part of this repository): it parses/validates a color argument and
returns an `(k, 4)` float array, falling back to the default color on a
parse failure. The embedding takes the colors already parsed (a
`List RGBA`) — a single color is a one-element list — so the transformation
is the identity on the rows. Only the row count matters to the verified
properties. -/
def transform_color_with_defaults (num_entries : ℕ) (colors : List RGBA) :
    List RGBA :=
  let _ := num_entries
  colors

/-- Modelled from the host framework (napari
`napari.layers.utils.color_transformations.normalize_and_broadcast_colors`,
not part of this repository): forces a color array to have exactly
`num_entries` rows — kept as-is when the length already matches, tiled when
it is a single row, and replaced by a warning fallback of `num_entries`
white rows on any other mismatch. -/
def normalize_and_broadcast_colors (num_entries : ℕ) (colors : List RGBA) :
    List RGBA :=
  if colors.length = num_entries then colors
  else
    match colors with
    | [c] => List.replicate num_entries c
    | _ => List.replicate num_entries whiteRGBA

/-- Embedding of `Region._initialize_color`
(src/napari_1d/layers/region/region.py, lines 148-171) and of the identical
`Centroids._initialize_color`
(src/napari_plot/layers/centroids/centroids.py, lines 107-133): with
`n > 0` items the colors are transformed and broadcast to `n` RGBA rows,
with zero items the empty `(0, 4)` array is returned. -/
def initialize_color (color : List RGBA) (n : ℕ) : List RGBA :=
  if 0 < n then
    normalize_and_broadcast_colors n (transform_color_with_defaults n color)
  else
    []

/-! ## The `Region` layer state -/

/-- The state of a `Region` layer that the verified setters read and write:
the regions held by the `_data_view` together with their per-region edge
widths and z-indices, and the layer-level `_current_edge_width`.

Modelled from the spec: the `RegionList` container
(`napari_1d.layers.region._region_list`) is not under `src/`; its callers in
`src/napari_1d/layers/region/region.py` use it as a list of regions with
parallel per-region attributes, where `update_edge_width(i, w)` and
`update_z_index(i, z)` set the attribute of region `i` and `_z_index` is
the list of per-region z-indices. Each region is embedded as its
`(start, stop)` coordinate pair; the color attributes and mesh bookkeeping
of the container are not referenced by any verified property and are
omitted. -/
structure RegionState where
  regions : List (ℚ × ℚ)
  edge_widths : List ℚ
  z_index : List ℤ
  current_edge_width : ℚ
deriving DecidableEq, Repr

/-- `Region.n_regions` (region.py, lines 377-380). -/
def RegionState.n_regions (rl : RegionState) : ℕ := rl.regions.length

/-- `RegionList.update_edge_width(i, width)`: set the edge width of region
`i` (out-of-range writes are impossible in the source, where the index
always enumerates the widths list; `List.set` ignores them). -/
def update_edge_width (rl : RegionState) (i : ℕ) (w : ℚ) : RegionState :=
  { rl with edge_widths := rl.edge_widths.set i w }

/-- `RegionList.update_z_index(i, z_index)`: set the z-index of region
`i`. -/
def update_z_index (rl : RegionState) (i : ℕ) (z : ℤ) : RegionState :=
  { rl with z_index := rl.z_index.set i z }

/-- The loop `for i, width in enumerate(widths): ...update_edge_width(i,
width)` of the `edge_width` setter, unrolled with the running index `i`. -/
def apply_edge_width_updates (rl : RegionState) (ws : List ℚ) (i : ℕ) :
    RegionState :=
  match ws with
  | [] => rl
  | w :: rest => apply_edge_width_updates (update_edge_width rl i w) rest (i + 1)

/-- The loop `for i, z_idx in enumerate(z_indices): ...update_z_index(i,
z_idx)` of the `z_index` setter, unrolled with the running index `i`. -/
def apply_z_index_updates (rl : RegionState) (zs : List ℤ) (i : ℕ) :
    RegionState :=
  match zs with
  | [] => rl
  | z :: rest => apply_z_index_updates (update_z_index rl i z) rest (i + 1)

/-- The argument of the `Region.edge_width` setter: a Python scalar or a
Python list. -/
inductive WidthArg where
  | scalar (w : ℚ)
  | ofList (ws : List ℚ)
deriving DecidableEq, Repr

/-- The argument of the `Region.z_index` setter: a Python scalar or a
Python list. -/
inductive ZIndexArg where
  | scalar (z : ℤ)
  | ofList (zs : List ℤ)
deriving DecidableEq, Repr

/-- Embedding of the `Region.edge_width` setter (region.py, lines 207-227).
A list whose length differs from `n_regions` raises `ValueError` before any
update runs (the returned state is the receiver unchanged); otherwise every
region edge width is written in index order. A scalar is expanded to
`[width for _ in range(self.n_regions)]`. -/
def edge_width_setter (rl : RegionState) (width : WidthArg) :
    RegionState × Option PyError :=
  match width with
  | .ofList ws =>
      if ws.length = rl.n_regions then
        (apply_edge_width_updates rl ws 0, none)
      else
        (rl, some .valueError)
  | .scalar w =>
      (apply_edge_width_updates rl (List.replicate rl.n_regions w) 0, none)

/-- Embedding of the `Region.z_index` setter (region.py, lines 247-267),
structured exactly like the `edge_width` setter. -/
def z_index_setter (rl : RegionState) (z_index : ZIndexArg) :
    RegionState × Option PyError :=
  match z_index with
  | .ofList zs =>
      if zs.length = rl.n_regions then
        (apply_z_index_updates rl zs 0, none)
      else
        (rl, some .valueError)
  | .scalar z =>
      (apply_z_index_updates rl (List.replicate rl.n_regions z) 0, none)

/-! ## `Region.add` z-index defaulting -/

/-- The `z_index` keyword argument of `Region.add`: absent (`None`), a
Python int, or a Python list of ints. -/
inductive ZArg where
  | noneZ
  | intZ (z : ℤ)
  | listZ (zs : List ℤ)
deriving DecidableEq, Repr

/-- Python truthiness of a `z_index` argument, as tested by the
`z_index or ...` expressions in `Region.add` and `Region._add_regions`:
`None`, the int `0` and the empty list are falsy. -/
def ZArg.truthy : ZArg → Bool
  | .noneZ => false
  | .intZ z => z != 0
  | .listZ zs => !zs.isEmpty

/-- The expression `z_index or max(self._data_view._z_index, default=-1) + 1`
(region.py, line 499 inside `add` and line 577 inside `_add_regions`): a
falsy argument is replaced by one more than the maximum existing z-index,
`-1` standing in for the maximum of an empty layer. -/
def z_or_next (dv_z : List ℤ) (z : ZArg) : ZArg :=
  if z.truthy then z else .intZ (dv_z.max?.getD (-1) + 1)

/-- The z-index values handed to the new regions by
`Region.add` → `Region._add_regions` → `_add_regions_to_view` for `k` new
regions: the `z_index or ...` defaulting runs once in `add` (line 499) and
once more in `_add_regions` (line 577), then `ensure_iterable(z_index)`
repeats an int for every region while a list is consumed element-wise and
the `zip` with `data` truncates it to at most `k` entries. -/
def add_assigned_z (dv_z : List ℤ) (z : ZArg) (k : ℕ) : List ℤ :=
  match z_or_next dv_z (z_or_next dv_z z) with
  | .intZ zv => List.replicate k zv
  | .listZ zs => zs.take k
  | .noneZ => []

/-- Embedding of `Region.add` (region.py, lines 439-512) restricted to the
arguments the verified property varies — the new region data and the
`z_index` keyword; `orientation`, `edge_width`, `edge_color` and
`face_color` are left at their defaults, in which case `ensure_iterable`
repeats the scalar defaults and the `zip` over the region inputs is
truncated only by `data` and by a list-valued `z_index`. With no new data
(`n_new_shapes == 0`) nothing is added. -/
def region_add (rl : RegionState) (data : List (ℚ × ℚ)) (z_index : ZArg) :
    RegionState :=
  if data.isEmpty then rl
  else
    let zs := add_assigned_z rl.z_index z_index data.length
    let pairs := data.zip zs
    { rl with
      regions := rl.regions ++ pairs.map Prod.fst
      edge_widths := rl.edge_widths ++ pairs.map (fun _ => rl.current_edge_width)
      z_index := rl.z_index ++ pairs.map Prod.snd }

/-! ## `Region._compute_vertices_and_box` -/

/-- A row of a numpy `(N, 2)` coordinate array. -/
abbrev Point := ℚ × ℚ

/-- The interaction modes of the Region layer.

Modelled from the spec: the `Mode` enum
(`napari_1d.layers.region._region_constants`) is not under `src/`; its
members `ADD`, `MOVE`, `SELECT` and `PAN_ZOOM` are the ones referenced by
`region.py`. -/
inductive Mode where
  | ADD
  | MOVE
  | SELECT
  | PAN_ZOOM
deriving DecidableEq, Repr

/-- A marker/box color returned by `_compute_vertices_and_box`: either the
literal string `"white"` or the value of `self._highlight_color`. -/
inductive HighlightColor where
  | white
  | highlight
deriving DecidableEq, Repr

/-- Modelled from the host framework (napari
`napari.layers.shapes._shapes_constants.Box.WITH_HANDLE`): the indices of
the interaction-box vertices including the rotation handle. -/
def boxWITH_HANDLE : List ℕ := [0, 1, 2, 3, 4, 5, 6, 7, 9]

/-- Modelled from the host framework (napari `Box.LINE_HANDLE`): the index
path drawing the box outline plus the handle. -/
def boxLINE_HANDLE : List ℕ := [7, 6, 4, 2, 0, 7, 8]

/-- Modelled from the host framework (napari `Box.LINE`): the index path
drawing the closed box outline. -/
def boxLINE : List ℕ := [0, 2, 4, 6, 0]

/-- Numpy fancy indexing `arr[idxs]` on an `(N, 2)` array: pick the rows at
the given indices (in the source every used index is in range; out-of-range
indices default to the origin). -/
def pickRows (idxs : List ℕ) (pts : List Point) : List Point :=
  idxs.map (fun i => pts.getD i (0, 0))

/-- The midpoint of two points. -/
def midpoint (p q : Point) : Point := ((p.1 + q.1) / 2, (p.2 + q.2) / 2)

/-- Modelled from the host framework (napari
`napari.layers.shapes._shapes_utils.create_box`): the axis-aligned
9-vertex interaction box of a set of points — corners and edge midpoints in
clockwise order from the top left, then the center. -/
def create_box (data : List Point) : List Point :=
  let x0 := (data.map Prod.fst).min?.getD 0
  let x1 := (data.map Prod.fst).max?.getD 0
  let y0 := (data.map Prod.snd).min?.getD 0
  let y1 := (data.map Prod.snd).max?.getD 0
  let tl : Point := (x0, y0)
  let tr : Point := (x1, y0)
  let br : Point := (x1, y1)
  let bl : Point := (x0, y1)
  [tl, midpoint tl tr, tr, midpoint tr br, br, midpoint br bl, bl,
    midpoint bl tl,
    ((tl.1 + tr.1 + br.1 + bl.1) / 4, (tl.2 + tr.2 + br.2 + bl.2) / 4)]

/-- The fields of a `Region` layer read by `_compute_vertices_and_box`:
`selected_data` (a set of indices; only emptiness matters, embedded as a
list), `_mode`, `_value` (a pair whose components are compared with
`None`), `_is_selecting`, `_selected_box` (the stored interaction box) and
`_drag_box` (the drag-selection corners). -/
structure HighlightState where
  selected_data : List ℕ
  mode : Mode
  value : Option ℕ × Option ℕ
  is_selecting : Bool
  selected_box : List Point
  drag_box : List Point
deriving DecidableEq, Repr

/-- The 5-tuple returned by `_compute_vertices_and_box`:
`(vertices, face_color, edge_color, pos, width)`. -/
structure HighlightBox where
  vertices : List Point
  face_color : HighlightColor
  edge_color : HighlightColor
  pos : Option (List Point)
  width : ℚ
deriving DecidableEq, Repr

/-- Embedding of `Region._compute_vertices_and_box` (region.py, lines
727-786). `arr[:, ::-1]` (reversing the two columns of every row) is
`Prod.swap` mapped over the rows. -/
def compute_vertices_and_box (s : HighlightState) : HighlightBox :=
  if 0 < s.selected_data.length then
    if s.mode = Mode.SELECT then
      let box := pickRows boxWITH_HANDLE s.selected_box
      let face_color :=
        if s.value.1 = none then HighlightColor.white
        else if s.value.2 = none then HighlightColor.white
        else HighlightColor.highlight
      { vertices := box.map Prod.swap
        face_color := face_color
        edge_color := .highlight
        pos := some ((pickRows boxLINE_HANDLE box).map Prod.swap)
        width := 3 / 2 }
    else
      { vertices := [], face_color := .white, edge_color := .white,
        pos := none, width := 0 }
  else if s.is_selecting then
    let box := create_box s.drag_box
    { vertices := []
      face_color := .white
      edge_color := .highlight
      pos := some ((pickRows boxLINE box).map Prod.swap)
      width := 3 / 2 }
  else
    { vertices := [], face_color := .white, edge_color := .white,
      pos := none, width := 0 }

/-! ## The `Centroids` layer -/

/-- Modelled from the spec: `parse_centroids_data`
(`napari_plot.layers.centroids._centroids_utils`) is not under `src/`; per
the `Centroids` docstring it sanitizes the input into per-centroid rows —
an `(N, 2)` input is position and upper value with the lower value assumed
zero, an `(N, 3)` input is position, lower and upper value — never changing
the number of centroids. Embedded on lists of rows: a two-entry row gains
the zero lower value, any other row is kept. -/
def parse_centroids_data (value : List (List ℚ)) : List (List ℚ) :=
  value.map (fun row =>
    match row with
    | [p, u] => [p, 0, u]
    | r => r)

/-- The state of a `Centroids` layer read and written by the `data` setter:
`_data` (the parsed centroid rows) and `_color` (one RGBA row per
centroid). -/
structure CentroidsState where
  _data : List (List ℚ)
  _color : List RGBA
deriving DecidableEq, Repr

/-- Embedding of the `Centroids.data` setter (centroids.py, lines 185-206).
The incoming value is parsed; with fewer new centroids the colors are
trimmed, with more they are extended with copies of the previous last row —
`self.color[-1]`, which raises `IndexError` on an empty color array, in
which case nothing has been assigned yet and the state is unchanged.
Finally `self.color = color` routes through `_initialize_color` with the
new number of centroids. -/
def centroids_data_setter (layer : CentroidsState) (value : List (List ℚ)) :
    CentroidsState × Option PyError :=
  let data := parse_centroids_data value
  let n := layer._data.length
  let n_new := data.length
  if n_new < n then
    let color := layer._color.take n_new
    ({ _data := data, _color := initialize_color color n_new }, none)
  else if n < n_new then
    match layer._color.getLast? with
    | none => (layer, some .indexError)
    | some last =>
        let color := layer._color ++ List.replicate (n_new - n) last
        ({ _data := data, _color := initialize_color color n_new }, none)
  else
    ({ _data := data, _color := initialize_color layer._color n_new }, none)

/-! ## `_QtMainWindow` cursor-status throttling -/

/-- The two Python callables wired up by
`_QtMainWindow._throttle_cursor_to_status_connection`:
`viewer._update_status_bar_from_cursor` and
`self.status_throttler.throttle`. -/
inductive StatusSlot where
  | updateStatusFromCursor
  | throttlerThrottle
deriving DecidableEq, Repr

/-- The connection state touched by the `_QtMainWindow` constructor: the
throttler timeout in milliseconds, the listeners of
`viewer.cursor.events.position`, and the listeners of
`status_throttler.triggered`. Qt/psygnal connections are embedded as
listener lists; `connect` appends, `disconnect` removes one occurrence
(raising, suppressed by the source, when absent). -/
structure CursorStatusWiring where
  timeout : ℕ
  position_listeners : List StatusSlot
  triggered_listeners : List StatusSlot
deriving DecidableEq, Repr

/-- Embedding of `_QtMainWindow._throttle_cursor_to_status_connection`
(qt_main_window.py, lines 122-128): disconnect the direct
cursor-position-to-status-bar callback (the `IndexError` when it is not
connected is suppressed), connect the cursor position event to
`status_throttler.throttle`, and connect `status_throttler.triggered` to
the status-bar update. -/
def throttle_cursor_to_status_connection (w : CursorStatusWiring) :
    CursorStatusWiring :=
  { w with
    position_listeners :=
      w.position_listeners.erase StatusSlot.updateStatusFromCursor
        ++ [StatusSlot.throttlerThrottle]
    triggered_listeners :=
      w.triggered_listeners ++ [StatusSlot.updateStatusFromCursor] }

/-- Embedding of the `_QtMainWindow.__init__` fragment (qt_main_window.py,
lines 113-115): a fresh `QSignalThrottler` (no `triggered` listeners yet)
gets `setTimeout(50)` and then
`_throttle_cursor_to_status_connection(viewer)` runs.
`initial_position_listeners` are the listeners the host viewer already
attached to `cursor.events.position` before the window was built (napari
attaches `_update_status_bar_from_cursor` once). -/
def qt_main_window_status_wiring
    (initial_position_listeners : List StatusSlot) : CursorStatusWiring :=
  throttle_cursor_to_status_connection
    { timeout := 50
      position_listeners := initial_position_listeners
      triggered_listeners := [] }

/-! ## Helper lemmas -/

/-- Setting entry `i` and keeping the first `i + 1` entries keeps the first
`i` old entries followed by the written value. -/
theorem take_succ_set {α : Type} (xs : List α) (i : ℕ) (w : α)
    (h : i < xs.length) :
    (xs.set i w).take (i + 1) = xs.take i ++ [w] := by
  induction xs generalizing i with
  | nil => simp at h
  | cons a t ih =>
    cases i with
    | zero => simp
    | succ j =>
      simp only [List.set_cons_succ, List.take_succ_cons, List.cons_append]
      rw [ih j (by simpa using h)]

/-- The edge-width update loop, started at index `i` on a widths list of
length `i + ws.length`, rewrites the tail of the widths from position `i`
on and touches nothing else. -/
theorem apply_edge_width_updates_eq (ws : List ℚ) (rl : RegionState) (i : ℕ)
    (h : rl.edge_widths.length = i + ws.length) :
    apply_edge_width_updates rl ws i
      = { rl with edge_widths := rl.edge_widths.take i ++ ws } := by
  induction ws generalizing rl i with
  | nil =>
    simp only [List.length_nil, Nat.add_zero] at h
    simp [apply_edge_width_updates, List.take_of_length_le (le_of_eq h)]
  | cons w rest ih =>
    have hlt : i < rl.edge_widths.length := by
      simp only [List.length_cons] at h; omega
    have hlen : (update_edge_width rl i w).edge_widths.length
        = (i + 1) + rest.length := by
      simp only [update_edge_width, List.length_set]
      simp only [List.length_cons] at h; omega
    rw [apply_edge_width_updates, ih _ _ hlen]
    simp [update_edge_width, take_succ_set rl.edge_widths i w hlt]

/-- The z-index update loop, started at index `i` on a z-index list of
length `i + zs.length`, rewrites the tail of the z-indices from position
`i` on and touches nothing else. -/
theorem apply_z_index_updates_eq (zs : List ℤ) (rl : RegionState) (i : ℕ)
    (h : rl.z_index.length = i + zs.length) :
    apply_z_index_updates rl zs i
      = { rl with z_index := rl.z_index.take i ++ zs } := by
  induction zs generalizing rl i with
  | nil =>
    simp only [List.length_nil, Nat.add_zero] at h
    simp [apply_z_index_updates, List.take_of_length_le (le_of_eq h)]
  | cons z rest ih =>
    have hlt : i < rl.z_index.length := by
      simp only [List.length_cons] at h; omega
    have hlen : (update_z_index rl i z).z_index.length
        = (i + 1) + rest.length := by
      simp only [update_z_index, List.length_set]
      simp only [List.length_cons] at h; omega
    rw [apply_z_index_updates, ih _ _ hlen]
    simp [update_z_index, take_succ_set rl.z_index i z hlt]

/-- A color list whose length already matches the entry count passes
through `_initialize_color` unchanged. -/
theorem initialize_color_of_length_eq (c : List RGBA) (n : ℕ)
    (h : c.length = n) : initialize_color c n = c := by
  cases n with
  | zero =>
    have : c = [] := List.length_eq_zero.mp h
    simp [initialize_color, this]
  | succ m =>
    simp [initialize_color, transform_color_with_defaults,
      normalize_and_broadcast_colors, h]

/-! ## C1 -/

/-- C1: on a Region layer with `n` regions, assigning a list whose length
differs from `n` to `edge_width`, or a list whose length differs from `n`
to `z_index`, raises `ValueError`, and no per-region edge width or z-index
is modified by the failed assignment — the returned state is the receiver
unchanged, the length check running before every update. -/
theorem region_width_zindex_length_mismatch_raises
    (rl : RegionState) (ws : List ℚ) (zs : List ℤ)
    (hw : ws.length ≠ rl.n_regions) (hz : zs.length ≠ rl.n_regions) :
    edge_width_setter rl (.ofList ws) = (rl, some PyError.valueError) ∧
    z_index_setter rl (.ofList zs) = (rl, some PyError.valueError) := by
  constructor
  · simp [edge_width_setter, hw]
  · simp [z_index_setter, hz]

/-- Witness for C1 at a concrete one-region layer and empty/too-long
lists. -/
theorem region_width_zindex_length_mismatch_raises_witness :
    edge_width_setter ⟨[(0, 1)], [1], [0], 1⟩ (.ofList [])
      = (⟨[(0, 1)], [1], [0], 1⟩, some PyError.valueError) ∧
    z_index_setter ⟨[(0, 1)], [1], [0], 1⟩ (.ofList [2, 3])
      = (⟨[(0, 1)], [1], [0], 1⟩, some PyError.valueError) :=
  region_width_zindex_length_mismatch_raises _ _ _ (by decide) (by decide)

/-! ## C8 -/

/-- C8: on a Region layer whose per-region widths list matches its region
count (the layer invariant), assigning a scalar `w` to `edge_width` is the
same assignment as the list holding `w` repeated `n_regions` times, and
every region edge width becomes `w`. -/
theorem region_edge_width_scalar_eq_replicated_list
    (rl : RegionState) (w : ℚ)
    (hinv : rl.edge_widths.length = rl.n_regions) :
    edge_width_setter rl (.scalar w)
      = edge_width_setter rl (.ofList (List.replicate rl.n_regions w)) ∧
    edge_width_setter rl (.scalar w)
      = ({ rl with edge_widths := List.replicate rl.n_regions w }, none) := by
  have hlen : rl.edge_widths.length
      = 0 + (List.replicate rl.n_regions w).length := by
    simp [hinv]
  constructor
  · simp [edge_width_setter]
  · simp only [edge_width_setter]
    rw [apply_edge_width_updates_eq _ _ _ hlen]
    simp

/-- Witness for C8 at a concrete two-region layer. -/
theorem region_edge_width_scalar_eq_replicated_list_witness :
    edge_width_setter ⟨[(0, 1), (2, 3)], [1, 4], [0, 0], 1⟩ (.scalar 7)
      = edge_width_setter ⟨[(0, 1), (2, 3)], [1, 4], [0, 0], 1⟩
          (.ofList (List.replicate 2 7)) ∧
    edge_width_setter ⟨[(0, 1), (2, 3)], [1, 4], [0, 0], 1⟩ (.scalar 7)
      = (⟨[(0, 1), (2, 3)], [7, 7], [0, 0], 1⟩, none) := by
  have h := region_edge_width_scalar_eq_replicated_list
    ⟨[(0, 1), (2, 3)], [1, 4], [0, 0], 1⟩ 7 (by decide)
  exact ⟨h.1, by rw [h.2]; rfl⟩

/-! ## C3 -/

/-- C3: the shared color-initialization step of the Region and Centroids
layers returns the empty `(0, 4)` color array for zero items, exactly `n`
RGBA rows for `n > 0` items, and broadcasts a single input color to all `n`
rows. -/
theorem initialize_color_shape :
    (∀ color : List RGBA, initialize_color color 0 = []) ∧
    (∀ (color : List RGBA) (n : ℕ), 0 < n →
      (initialize_color color n).length = n) ∧
    (∀ (c : RGBA) (n : ℕ), 0 < n →
      initialize_color [c] n = List.replicate n c) := by
  refine ⟨fun color => rfl, fun color n hn => ?_, fun c n hn => ?_⟩
  · unfold initialize_color transform_color_with_defaults
      normalize_and_broadcast_colors
    simp only [if_pos hn]
    split
    · next heq => exact heq
    · split <;> simp
  · unfold initialize_color transform_color_with_defaults
      normalize_and_broadcast_colors
    simp only [if_pos hn]
    split
    · next heq =>
      simp only [List.length_singleton] at heq
      subst heq
      simp
    · simp

/-- Witness for C3: a single red row broadcast to three rows. -/
theorem initialize_color_shape_witness :
    (initialize_color [⟨1, 0, 0, 1⟩] 3).length = 3 ∧
    initialize_color [⟨1, 0, 0, 1⟩] 3 = List.replicate 3 ⟨1, 0, 0, 1⟩ :=
  ⟨initialize_color_shape.2.1 [⟨1, 0, 0, 1⟩] 3 (by decide),
   initialize_color_shape.2.2 ⟨1, 0, 0, 1⟩ 3 (by decide)⟩

/-! ## C4 -/

/-- A falsy `z_index` argument (`None`, and the default path) resolves,
after the defaulting in both `add` and `_add_regions`, to `k` copies of one
more than the maximum existing z-index. -/
theorem add_assigned_z_noneZ (dv : List ℤ) (k : ℕ) :
    add_assigned_z dv .noneZ k = List.replicate k (dv.max?.getD (-1) + 1) := by
  unfold add_assigned_z z_or_next ZArg.truthy
  by_cases h : dv.max?.getD (-1) + 1 = 0 <;> simp [h]

/-- A concrete Region layer holding one region whose z-index is 5. -/
def regionStateZ5 : RegionState := ⟨[(0, 1)], [1], [5], 1⟩

/-- Counterexample to C4 as stated: on a layer whose only region has
z-index 5, `add` with the supplied argument `z_index=0` gives the new
region z-index 6 (one more than the maximum), not the supplied 0 — the
source tests the argument with Python truthiness (`z_index or ...`), and
`0` is falsy. -/
theorem region_add_zero_z_index_not_applied :
    (region_add regionStateZ5 [(2, 3)] (.intZ 0)).z_index = [5, 6] ∧
    (region_add regionStateZ5 [(2, 3)] (.intZ 0)).z_index
      ≠ regionStateZ5.z_index ++ [0] := by
  constructor
  · rfl
  · intro h
    rw [show (region_add regionStateZ5 [(2, 3)] (.intZ 0)).z_index = [5, 6]
      from rfl] at h
    simp [regionStateZ5] at h

/-- C4 (amended): calling `Region.add` with `k > 0` new regions and no
`z_index` argument assigns every new region a z-index equal to one more
than the maximum z-index of the regions already present (0 when the layer
was empty); a supplied truthy `z_index` — a nonzero int, or a non-empty
list of matching length — is applied to the new regions, while a falsy
supplied value (the int `0`, or an empty list) is treated as if absent. -/
theorem region_add_z_index_defaulting
    (rl : RegionState) (data : List (ℚ × ℚ)) (hd : data ≠ []) :
    ((region_add rl data .noneZ).z_index
      = rl.z_index
          ++ List.replicate data.length (rl.z_index.max?.getD (-1) + 1)) ∧
    (rl.z_index = [] →
      (region_add rl data .noneZ).z_index = List.replicate data.length 0) ∧
    (∀ z : ℤ, z ≠ 0 →
      (region_add rl data (.intZ z)).z_index
        = rl.z_index ++ List.replicate data.length z) ∧
    (∀ zs : List ℤ, zs ≠ [] → zs.length = data.length →
      (region_add rl data (.listZ zs)).z_index = rl.z_index ++ zs) ∧
    ((region_add rl data (.intZ 0)).z_index
      = (region_add rl data .noneZ).z_index ∧
     (region_add rl data (.listZ [])).z_index
      = (region_add rl data .noneZ).z_index) := by
  have hne : data.isEmpty = false := by
    simpa [List.isEmpty_iff] using hd
  have hzip : ∀ zv : ℤ,
      (data.zip (List.replicate data.length zv)).map Prod.snd
        = List.replicate data.length zv := by
    intro zv
    apply List.map_snd_zip
    simp
  refine ⟨?_, ?_, ?_, ?_, ?_, ?_⟩
  · simp only [region_add, hne, Bool.false_eq_true, if_false,
      add_assigned_z_noneZ]
    rw [hzip]
  · intro h
    simp only [region_add, hne, Bool.false_eq_true, if_false,
      add_assigned_z_noneZ, h]
    rw [hzip]
    simp
  · intro z hz
    have : add_assigned_z rl.z_index (.intZ z) data.length
        = List.replicate data.length z := by
      unfold add_assigned_z z_or_next ZArg.truthy
      simp [hz]
    simp only [region_add, hne, Bool.false_eq_true, if_false, this]
    rw [hzip]
  · intro zs hzs hlen
    have : add_assigned_z rl.z_index (.listZ zs) data.length = zs := by
      unfold add_assigned_z z_or_next ZArg.truthy
      simp [List.isEmpty_iff, hzs, List.take_of_length_le (le_of_eq hlen)]
    simp only [region_add, hne, Bool.false_eq_true, if_false, this]
    apply congrArg
    apply List.map_snd_zip
    exact le_of_eq hlen
  · have : add_assigned_z rl.z_index (.intZ 0) data.length
        = add_assigned_z rl.z_index .noneZ data.length := by
      unfold add_assigned_z z_or_next ZArg.truthy
      simp
    simp only [region_add, hne, Bool.false_eq_true, if_false, this]
  · have : add_assigned_z rl.z_index (.listZ []) data.length
        = add_assigned_z rl.z_index .noneZ data.length := by
      unfold add_assigned_z z_or_next ZArg.truthy
      simp
    simp only [region_add, hne, Bool.false_eq_true, if_false, this]

/-- Witness for the amended C4 at concrete layers: the defaulted z-index on
a non-empty and on an empty layer, and a supplied truthy int and list. -/
theorem region_add_z_index_defaulting_witness :
    (region_add regionStateZ5 [(2, 3)] .noneZ).z_index = [5, 6] ∧
    (region_add ⟨[], [], [], 1⟩ [(2, 3)] .noneZ).z_index = [0] ∧
    (region_add regionStateZ5 [(2, 3)] (.intZ 9)).z_index = [5, 9] ∧
    (region_add regionStateZ5 [(2, 3), (4, 5)] (.listZ [7, 9])).z_index
      = [5, 7, 9] := by
  have h1 := region_add_z_index_defaulting regionStateZ5 [(2, 3)]
    (by decide)
  have h2 := region_add_z_index_defaulting ⟨[], [], [], 1⟩ [(2, 3)]
    (by decide)
  have h3 := region_add_z_index_defaulting regionStateZ5 [(2, 3), (4, 5)]
    (by decide)
  refine ⟨?_, ?_, ?_, ?_⟩
  · rw [h1.1]; rfl
  · rw [h2.2.1 rfl]; rfl
  · rw [h1.2.2.1 9 (by decide)]; rfl
  · rw [h3.2.2.2.1 [7, 9] (by decide) (by decide)]; rfl

/-! ## C6 -/

/-- C6: on a Centroids layer holding zero centroids (so with the empty
color array), assigning data that parses to one or more centroids raises
`IndexError` — the source indexes `self.color[-1]` on the empty color
array — and the stored data and color array are unchanged by the failed
assignment. -/
theorem centroids_data_empty_raises_index_error
    (layer : CentroidsState) (value : List (List ℚ))
    (hdata : layer._data = []) (hcolor : layer._color = [])
    (hnew : value ≠ []) :
    centroids_data_setter layer value = (layer, some PyError.indexError) := by
  have hlen : 0 < (parse_centroids_data value).length := by
    simpa [parse_centroids_data] using List.length_pos.mpr hnew
  unfold centroids_data_setter
  rw [hdata, hcolor]
  simp only [List.length_nil, List.getLast?_nil]
  rw [if_neg (by omega), if_pos hlen]

/-- Witness for C6: an empty layer receiving one centroid. -/
theorem centroids_data_empty_raises_index_error_witness :
    centroids_data_setter ⟨[], []⟩ [[1, 2]]
      = (⟨[], []⟩, some PyError.indexError) :=
  centroids_data_empty_raises_index_error ⟨[], []⟩ [[1, 2]] rfl rfl
    (by decide)

/-! ## C7 -/

/-- C7: on a Centroids layer holding at least one centroid whose color
array has one RGBA row per centroid (the layer invariant), every `data`
assignment succeeds and preserves the invariant: with fewer new rows the
colors are trimmed to the first `n_new` rows of the old array, with more
rows the old array is extended with copies of its previous last row. -/
theorem centroids_data_setter_preserves_color_invariant
    (layer : CentroidsState) (value : List (List ℚ))
    (hinv : layer._color.length = layer._data.length)
    (hpos : 0 < layer._data.length) :
    ∃ l', centroids_data_setter layer value = (l', none) ∧
      l'._data = parse_centroids_data value ∧
      l'._color.length = l'._data.length ∧
      ((parse_centroids_data value).length < layer._data.length →
        l'._color = layer._color.take (parse_centroids_data value).length) ∧
      (layer._data.length < (parse_centroids_data value).length →
        l'._color = layer._color
          ++ List.replicate
              ((parse_centroids_data value).length - layer._data.length)
              (layer._color.getLastD whiteRGBA)) := by
  unfold centroids_data_setter
  rcases Nat.lt_trichotomy (parse_centroids_data value).length
      layer._data.length with hlt | heq | hgt
  · rw [if_pos hlt]
    have htake : (layer._color.take
        (parse_centroids_data value).length).length
        = (parse_centroids_data value).length := by
      simp; omega
    refine ⟨_, rfl, rfl, ?_, fun _ => ?_, fun h => absurd h (by omega)⟩
    · rw [initialize_color_of_length_eq _ _ htake, htake]
    · rw [initialize_color_of_length_eq _ _ htake]
  · rw [if_neg (by omega), if_neg (by omega)]
    refine ⟨_, rfl, rfl, ?_, fun h => absurd h (by omega),
      fun h => absurd h (by omega)⟩
    rw [initialize_color_of_length_eq _ _ (by omega)]
    show layer._color.length = (parse_centroids_data value).length
    omega
  · have hcne : layer._color ≠ [] := by
      intro h
      rw [h] at hinv
      simp at hinv
      omega
    obtain ⟨last, hlast⟩ :=
      Option.isSome_iff_exists.mp (List.getLast?_isSome.mpr hcne)
    have hlastD : layer._color.getLastD whiteRGBA = last := by
      rw [List.getLastD_eq_getLast?, hlast]
      rfl
    rw [if_neg (by omega), if_pos hgt, hlast]
    have hext : (layer._color ++ List.replicate
        ((parse_centroids_data value).length - layer._data.length)
        last).length = (parse_centroids_data value).length := by
      simp
      omega
    refine ⟨_, rfl, rfl, ?_, fun h => absurd h (by omega), fun _ => ?_⟩
    · rw [initialize_color_of_length_eq _ _ hext, hext]
    · rw [initialize_color_of_length_eq _ _ hext, hlastD]

/-- Witness for C7: a two-centroid layer trimmed to one centroid, applied
at a concrete input (the trimming branch). -/
theorem centroids_data_setter_preserves_color_invariant_witness :
    ∃ l', centroids_data_setter
        ⟨[[1, 0, 2], [2, 0, 3]], [⟨1, 0, 0, 1⟩, ⟨0, 1, 0, 1⟩]⟩ [[5, 6]]
      = (l', none) ∧
      l'._data = parse_centroids_data [[5, 6]] ∧
      l'._color.length = l'._data.length ∧
      l'._color = [⟨1, 0, 0, 1⟩] := by
  obtain ⟨l', h1, h2, h3, h4, _⟩ :=
    centroids_data_setter_preserves_color_invariant
      ⟨[[1, 0, 2], [2, 0, 3]], [⟨1, 0, 0, 1⟩, ⟨0, 1, 0, 1⟩]⟩ [[5, 6]]
      (by decide) (by decide)
  refine ⟨l', h1, h2, h3, ?_⟩
  rw [h4 (by decide)]
  rfl

/-! ## C2 -/

/-- C2: `Region._compute_vertices_and_box` returns exactly by this case
analysis: (i) with a non-empty selection in SELECT mode, the WITH_HANDLE
interaction-box vertices with their two columns reversed as the marker
vertices, the LINE_HANDLE subset of that box with columns reversed as the
line positions, box edge width 1.5, edge color the highlight color, and
face color the highlight color iff both components of `_value` are
non-None (otherwise white); (ii) with an empty selection during a drag
selection, empty vertices, edge color the highlight color, face color
white, the `Box.LINE` subset of `create_box(_drag_box)` with columns
reversed as the line positions, and width 1.5; (iii) in every other case —
including a non-empty selection in a mode other than SELECT — empty
vertices, white face and edge colors, positions `None` and width 0. -/
theorem region_compute_vertices_and_box_cases (s : HighlightState) :
    (s.selected_data ≠ [] → s.mode = Mode.SELECT →
      compute_vertices_and_box s =
        { vertices := (pickRows boxWITH_HANDLE s.selected_box).map Prod.swap
          face_color :=
            if s.value.1 ≠ none ∧ s.value.2 ≠ none then .highlight
            else .white
          edge_color := .highlight
          pos := some ((pickRows boxLINE_HANDLE
            (pickRows boxWITH_HANDLE s.selected_box)).map Prod.swap)
          width := 3 / 2 }) ∧
    (s.selected_data = [] → s.is_selecting = true →
      compute_vertices_and_box s =
        { vertices := []
          face_color := .white
          edge_color := .highlight
          pos := some ((pickRows boxLINE (create_box s.drag_box)).map
            Prod.swap)
          width := 3 / 2 }) ∧
    ((s.selected_data ≠ [] ∧ s.mode ≠ Mode.SELECT) ∨
        (s.selected_data = [] ∧ s.is_selecting = false) →
      compute_vertices_and_box s =
        { vertices := [], face_color := .white, edge_color := .white,
          pos := none, width := 0 }) := by
  refine ⟨fun hne hsel => ?_, fun hemp hdrag => ?_, fun h => ?_⟩
  · have hpos : 0 < s.selected_data.length := List.length_pos.mpr hne
    simp only [compute_vertices_and_box, hpos, if_true, hsel, if_pos rfl,
      HighlightBox.mk.injEq, true_and, and_true]
    rcases hval : s.value with ⟨v1, v2⟩
    cases v1 <;> cases v2 <;> simp
  · have hz : ¬0 < s.selected_data.length := by simp [hemp]
    simp only [compute_vertices_and_box, if_neg hz, hdrag, if_true]
  · rcases h with ⟨hne, hmode⟩ | ⟨hemp, hnodrag⟩
    · have hpos : 0 < s.selected_data.length := List.length_pos.mpr hne
      simp only [compute_vertices_and_box, hpos, if_true, if_neg hmode]
    · have hz : ¬0 < s.selected_data.length := by simp [hemp]
      simp only [compute_vertices_and_box, if_neg hz, hnodrag,
        Bool.false_eq_true, if_false]

/-- A concrete stored interaction box (10 rows, handle last) for the C2
witness. -/
def selectedBox10 : List Point :=
  [(0, 0), (0, 1), (0, 2), (1, 2), (2, 2), (2, 1), (2, 0), (1, 0), (1, 1),
    (3, 3)]

/-- Witness for C2, one concrete state per branch: a SELECT-mode selection
with both `_value` components set, a drag selection with no selection, and
a non-empty selection in MOVE mode. -/
theorem region_compute_vertices_and_box_cases_witness :
    compute_vertices_and_box
        ⟨[0], .SELECT, (some 1, some 2), false, selectedBox10, []⟩ =
      { vertices := [(0, 0), (1, 0), (2, 0), (2, 1), (2, 2), (1, 2),
          (0, 2), (0, 1), (3, 3)]
        face_color := .highlight
        edge_color := .highlight
        pos := some [(0, 1), (0, 2), (2, 2), (2, 0), (0, 0), (0, 1),
          (3, 3)]
        width := 3 / 2 } ∧
    compute_vertices_and_box
        ⟨[], .SELECT, (none, none), true, [], [(0, 0), (2, 4)]⟩ =
      { vertices := []
        face_color := .white
        edge_color := .highlight
        pos := some [(0, 0), (0, 2), (4, 2), (4, 0), (0, 0)]
        width := 3 / 2 } ∧
    compute_vertices_and_box
        ⟨[0], .MOVE, (some 1, some 2), false, selectedBox10, []⟩ =
      { vertices := [], face_color := .white, edge_color := .white,
        pos := none, width := 0 } := by
  refine ⟨?_, ?_, ?_⟩
  · rw [(region_compute_vertices_and_box_cases
      ⟨[0], .SELECT, (some 1, some 2), false, selectedBox10, []⟩).1
      (by decide) rfl]
    rfl
  · rw [(region_compute_vertices_and_box_cases
      ⟨[], .SELECT, (none, none), true, [], [(0, 0), (2, 4)]⟩).2.1
      rfl rfl]
    rfl
  · exact (region_compute_vertices_and_box_cases
      ⟨[0], .MOVE, (some 1, some 2), false, selectedBox10, []⟩).2.2
      (Or.inl ⟨by decide, by decide⟩)

/-! ## C5 -/

/-- C5: after the `_QtMainWindow` constructor wires the status throttling —
given that the host viewer attached its direct
cursor-position-to-status-bar callback at most once — the throttler timeout
is exactly 50 ms, the direct callback is no longer connected to the cursor
position event, the throttler is, and the throttler triggered signal drives
the status-bar update: every cursor-position status update passes through
the 50 ms throttler. -/
theorem qt_main_window_throttles_cursor_status
    (initial : List StatusSlot)
    (h : initial.count StatusSlot.updateStatusFromCursor ≤ 1) :
    (qt_main_window_status_wiring initial).timeout = 50 ∧
    StatusSlot.updateStatusFromCursor
      ∉ (qt_main_window_status_wiring initial).position_listeners ∧
    StatusSlot.throttlerThrottle
      ∈ (qt_main_window_status_wiring initial).position_listeners ∧
    (qt_main_window_status_wiring initial).triggered_listeners
      = [StatusSlot.updateStatusFromCursor] := by
  refine ⟨rfl, ?_, ?_, rfl⟩
  · intro hmem
    have hmem' : StatusSlot.updateStatusFromCursor
        ∈ initial.erase StatusSlot.updateStatusFromCursor
          ++ [StatusSlot.throttlerThrottle] := hmem
    rcases List.mem_append.mp hmem' with hin | hin
    · have hz : (initial.erase StatusSlot.updateStatusFromCursor).count
          StatusSlot.updateStatusFromCursor = 0 := by
        rw [List.count_erase_self]
        omega
      have hpos := List.count_pos_iff.mpr hin
      omega
    · simp at hin
  · show StatusSlot.throttlerThrottle
      ∈ initial.erase StatusSlot.updateStatusFromCursor
        ++ [StatusSlot.throttlerThrottle]
    exact List.mem_append.mpr (Or.inr (by simp))

/-- Witness for C5 at the host viewer default: the direct callback
connected exactly once before the window is built. -/
theorem qt_main_window_throttles_cursor_status_witness :
    (qt_main_window_status_wiring [StatusSlot.updateStatusFromCursor]).timeout
      = 50 ∧
    StatusSlot.updateStatusFromCursor
      ∉ (qt_main_window_status_wiring
          [StatusSlot.updateStatusFromCursor]).position_listeners ∧
    StatusSlot.throttlerThrottle
      ∈ (qt_main_window_status_wiring
          [StatusSlot.updateStatusFromCursor]).position_listeners ∧
    (qt_main_window_status_wiring
        [StatusSlot.updateStatusFromCursor]).triggered_listeners
      = [StatusSlot.updateStatusFromCursor] :=
  qt_main_window_throttles_cursor_status [StatusSlot.updateStatusFromCursor]
    (by decide)

end NapariPlot
